import Mathlib

/-
Verification of the pingu uptime monitor core (src/src/monitor.rs, src/src/website.rs,
src/src/email_config.rs) against its specification. The stateful Rust code is embedded
shallowly: the registry HashMap becomes an association list, SystemTime becomes a Nat tick,
and each fallible external call (HTTP transport, mail library) is given by an explicit
input describing its outcome. A panic of the Rust code (a failed unwrap) is modelled as
the value none.
-/

namespace Pingu

/-- Details of a successful HTTP response as stored in an Up outcome
(ResponseDetails in src/src/website.rs). -/
structure ResponseDetails where
  status_code : Nat
  headers : List (String × String)
  content_length : Option Nat
deriving DecidableEq

/-- Outcome of one probe (CheckStatus in src/src/website.rs). -/
inductive CheckStatus where
  | Up : ResponseDetails → CheckStatus
  | Down : Nat → String → CheckStatus
deriving DecidableEq

/-- True exactly when the outcome is the Up variant (CheckStatus::is_up in
src/src/website.rs). -/
def CheckStatus.is_up : CheckStatus → Bool
  | .Up _ => true
  | .Down _ _ => false

/-- One history entry (Check in src/src/website.rs). -/
structure Check where
  status : CheckStatus
  timestamp : Nat
deriving DecidableEq

/-- Per-URL monitor state (Website in src/src/website.rs). The field total_checks is the
append-only history of checks. -/
structure Website where
  url : String
  last_check : Nat
  is_up : Bool
  total_checks : List Check
  successful_checks : Nat
deriving DecidableEq

/-- Report handed to the notification sink (FailReport in src/src/website.rs). -/
structure FailReport where
  url : String
  status_code : Nat
  error_message : String
  timestamp : Nat
deriving DecidableEq

/-- The registry mapping of WebsiteMonitor (HashMap String Website in src/src/monitor.rs),
modelled as an association list whose reachable states have unique keys. -/
abbrev Registry := List (String × Website)

/-- Lookup of the value stored at a key. -/
def lookupW (k : String) : Registry → Option Website
  | [] => none
  | (a, w) :: rest => if a = k then some w else lookupW k rest

/-- Insert of HashMap::insert: replace the value stored at the key, or add a fresh entry. -/
def insertW (m : Registry) (k : String) (w : Website) : Registry :=
  match m with
  | [] => [(k, w)]
  | (a, b) :: rest => if a = k then (k, w) :: rest else (a, b) :: insertW rest k w

/-- Embeds WebsiteMonitor::add_website (src/src/monitor.rs lines 41 to 53): insert a fresh
Website whose last_check is the current time, whose history is empty, with is_up false. -/
def add_website (m : Registry) (url : String) (now : Nat) : Registry :=
  insertW m url ⟨url, now, false, [], 0⟩

/-- Embeds WebsiteMonitor::get_status (src/src/monitor.rs lines 130 to 142): a snapshot
cloning every stored Website value. -/
def get_status (m : Registry) : List Website := m.map (fun p => p.2)

/-- Success classification of an HTTP status code as used by the transport (a 2xx code). -/
def is_success (code : Nat) : Bool := 200 ≤ code && code ≤ 299

/-- One unit of the response body as handed over by the HTTP transport: some c for a
correctly decoded character, none for a malformed byte sequence. The lossy text decoding
performed by the transport replaces a malformed sequence with U+FFFD instead of failing. -/
abbrev BodyUnits := List (Option Char)

/-- The Unicode replacement character substituted for malformed body bytes. -/
def replacementChar : Char := Char.ofNat 0xFFFD

/-- Lossy text decoding of a response body: every malformed sequence becomes the
replacement character, so decoding itself never fails. -/
def textLossy (units : BodyUnits) : String :=
  String.mk (units.map (fun u => u.getD replacementChar))

/-- Response delivered by the HTTP transport when the request itself succeeds. Each header
value is some text when it is representable as text and none when it holds opaque bytes
(the value_to_str call of the transport fails on it); body is an error when reading the
body fails mid-stream, otherwise the decoded units. -/
structure HttpResponse where
  status_code : Nat
  headers : List (String × Option String)
  content_length : Option Nat
  body : Except String BodyUnits

/-- Result of the bounded GET performed by the HTTP transport: a response, or a transport
error (timeout, DNS failure, connection refused, TLS error) with its display text. -/
inductive TransportResult where
  | ok : HttpResponse → TransportResult
  | err : String → TransportResult

/-- Outcomes of the fallible external mail-library calls made by
send_email_notification (src/src/monitor.rs lines 155 to 202), in source order:
parsing the to address (a failure is returned as an error), parsing the from address
(a failure panics through unwrap), building the message (a failure is returned as an
error), and building the relay transport (a failure panics through unwrap). These
outcomes are determined by the EmailConfig of src/src/email_config.rs; the model carries
them directly. -/
structure EmailOracles where
  to_parse_ok : Bool
  from_parse_ok : Bool
  body_build_ok : Bool
  relay_ok : Bool
deriving DecidableEq

/-- All external mail-library calls that build the message succeed. -/
def EmailOracles.allOk (o : EmailOracles) : Prop :=
  o.to_parse_ok = true ∧ o.from_parse_ok = true ∧ o.body_build_ok = true ∧ o.relay_ok = true

instance (o : EmailOracles) : Decidable o.allOk := by
  unfold EmailOracles.allOk; infer_instance

/-- Embeds WebsiteMonitor::send_email_notification (src/src/monitor.rs lines 155 to 202).
The result is the console output together with none for a panic, some of an error for a
returned error, and some of ok for normal completion. A delivery failure of the mail
transport is only logged; the function still returns ok, so deliveryOk never influences
the returned value. -/
def send_email_notification (o : EmailOracles) (deliveryOk : Bool) :
    List String × Option (Except String Unit) :=
  if o.to_parse_ok = false then ([], some (Except.error "invalid to address"))
  else if o.from_parse_ok = false then ([], none)
  else if o.body_build_ok = false then ([], some (Except.error "could not build message"))
  else if o.relay_ok = false then ([], none)
  else if deliveryOk then (["Email sent successfully!"], some (Except.ok ()))
  else (["Could not send email"], some (Except.ok ()))

/-- Observable result of one check_website call: the FailReports passed to
send_email_notification, the console output, and the returned CheckStatus, with none
standing for a panic of one of the unwrap calls. -/
structure CheckResult where
  reports : List FailReport
  log : List String
  status : Option CheckStatus
deriving DecidableEq

/-- Embeds WebsiteMonitor::check_website (src/src/monitor.rs lines 55 to 113) with the
email_notifications feature compiled in. The unwrap on the body text panics when reading
the body fails; the unwrap on each header value panics when the value is not representable
as text; the unwrap on send_email_notification panics when that call returns an error. -/
def check_website (o : EmailOracles) (deliveryOk : Bool) (url : String)
    (tr : TransportResult) (now : Nat) : CheckResult :=
  match tr with
  | .ok response =>
    if is_success response.status_code = false then
      match response.body with
      | .error _ => ⟨[], [], none⟩
      | .ok units =>
        let error_message := textLossy units
        let fail_report : FailReport := ⟨url, response.status_code, error_message, now⟩
        let sent := send_email_notification o deliveryOk
        match sent.2 with
        | some (Except.ok _) =>
          ⟨[fail_report], sent.1, some (CheckStatus.Down response.status_code error_message)⟩
        | _ => ⟨[fail_report], sent.1, none⟩
    else
      if response.headers.all (fun p => p.2.isSome) then
        ⟨[], [], some (CheckStatus.Up ⟨response.status_code,
          response.headers.map (fun p => (p.1, p.2.getD "")),
          response.content_length⟩)⟩
      else ⟨[], [], none⟩
  | .err msg =>
    let fail_report : FailReport := ⟨url, 65535, msg, now⟩
    let sent := send_email_notification o deliveryOk
    match sent.2 with
    | some (Except.ok _) =>
      ⟨[fail_report], ("err = " ++ msg) :: sent.1, some (CheckStatus.Down 0 msg)⟩
    | _ => ⟨[fail_report], ("err = " ++ msg) :: sent.1, none⟩

/-- Applies one completed probe outcome to a Website exactly as the loop body of
WebsiteMonitor::update_website_status does (src/src/monitor.rs lines 118 to 126). -/
def updateWebsite (w : Website) (status : CheckStatus) (timestamp : Nat) : Website :=
  { w with
    last_check := timestamp
    is_up := status.is_up
    successful_checks := w.successful_checks + (if status.is_up then 1 else 0)
    total_checks := w.total_checks ++ [⟨status, timestamp⟩] }

/-- Embeds WebsiteMonitor::update_website_status (src/src/monitor.rs lines 115 to 128) at
the registry level: probe u is the CheckStatus obtained from check_website for u, and ts u
the current time observed in the iteration handling u. -/
def update_website_status (probe : String → CheckStatus) (ts : String → Nat)
    (m : Registry) : Registry :=
  m.map (fun p => (p.1, updateWebsite p.2 (probe p.2.url) (ts p.2.url)))

/-- Collected observable effects of one full sweep. -/
structure SweepOut where
  registry : Registry
  reports : List FailReport
  log : List String
deriving DecidableEq

/-- Embeds one full run of WebsiteMonitor::update_website_status including its
check_website calls: tr u is the transport result observed for u, o u and d u the
outcomes of the external mail calls for the notification sent for u, ts u the time.
A panic inside check_website aborts the sweep, which is the value none. -/
def update_website_status_full (o : String → EmailOracles) (d : String → Bool)
    (tr : String → TransportResult) (ts : String → Nat) : Registry → Option SweepOut
  | [] => some ⟨[], [], []⟩
  | (k, w) :: rest =>
    match (check_website (o w.url) (d w.url) w.url (tr w.url) (ts w.url)).status with
    | none => none
    | some st =>
      match update_website_status_full o d tr ts rest with
      | none => none
      | some out =>
        some ⟨(k, updateWebsite w st (ts w.url)) :: out.registry,
          (check_website (o w.url) (d w.url) w.url (tr w.url) (ts w.url)).reports
            ++ out.reports,
          (check_website (o w.url) (d w.url) w.url (tr w.url) (ts w.url)).log ++ out.log⟩

/-- Number of Down outcomes observed during one sweep over the registry. -/
def downCount (o : String → EmailOracles) (d : String → Bool)
    (tr : String → TransportResult) (ts : String → Nat) (m : Registry) : Nat :=
  m.countP (fun p =>
    match (check_website (o p.2.url) (d p.2.url) p.2.url (tr p.2.url) (ts p.2.url)).status
      with
    | some st => !st.is_up
    | none => false)

/-- One registry operation: registering a URL at a time, or running one sweep with the
probe outcomes and per-URL times it observes. -/
inductive Op where
  | add : String → Nat → Op
  | sweep : (String → CheckStatus) → (String → Nat) → Op

/-- Applies one operation to the registry. -/
def applyOp (m : Registry) : Op → Registry
  | .add url t => add_website m url t
  | .sweep probe ts => update_website_status probe ts m

/-- Registry state reached by a sequence of operations from the empty registry. -/
def run (ops : List Op) : Registry := ops.foldl applyOp []

/-- Number of Up entries in a history. -/
def countUp (l : List Check) : Nat := l.countP (fun c => c.status.is_up)

/-- Accumulator step counting probes of a URL since its latest registration: an add of the
URL marks it registered and resets the count, and every sweep run while it is registered
probes it exactly once. -/
def probeCountStep (url : String) (acc : Bool × Nat) : Op → Bool × Nat
  | .add u _ => if u = url then (true, 0) else acc
  | .sweep _ _ => if acc.1 then (true, acc.2 + 1) else acc

/-- Number of probes performed for a URL since it was last added. -/
def probesSinceAdd (ops : List Op) (url : String) : Nat :=
  (ops.foldl (probeCountStep url) (false, 0)).2

/-- Well-formedness that every HashMap-backed registry state satisfies: keys are unique,
and the url field of each stored Website equals its key. -/
def wfR (m : Registry) : Prop :=
  (m.map Prod.fst).Nodup ∧ ∀ p ∈ m, (p : String × Website).2.url = p.1

instance (m : Registry) : Decidable (wfR m) := by
  unfold wfR; infer_instance

/-- Per-URL part of the data-model invariant: the successful counter equals the number of
Up entries of the history, and is_up mirrors the outcome of the latest history entry. -/
def GoodW (w : Website) : Prop :=
  w.successful_checks = countUp w.total_checks ∧
  ∀ c, w.total_checks.getLast? = some c → w.is_up = c.status.is_up

/-- Relation tying the registry state of one URL to the probe-counting accumulator: when
the URL is registered the flag is set and the count equals its history length and its
state satisfies GoodW; when it is absent the flag is clear. -/
def RegAcc (url : String) (m : Registry) (acc : Bool × Nat) : Prop :=
  (∀ w, lookupW url m = some w →
    acc.1 = true ∧ w.total_checks.length = acc.2 ∧ GoodW w) ∧
  (lookupW url m = none → acc.1 = false)

/-- Time of the n-th tick, n = 0 first, of the tokio interval timer driving
WebsiteMonitor::start_monitoring (src/src/monitor.rs lines 144 to 153). A tokio interval
completes its first tick immediately when first awaited and then ticks once per period, so
the n-th tick fires at n times the period. -/
def tickTime (intervalMs n : Nat) : Nat := n * intervalMs

/-- Number of sweeps start_monitoring has triggered by time t: one per tick fired so far,
with sweeps modelled as instantaneous. -/
def sweepsTriggered (intervalMs t : Nat) : Nat :=
  ((Finset.range (t + 2)).filter (fun n => tickTime intervalMs n ≤ t)).card

/-- Mail oracles where every external call succeeds. -/
def oracles_ok : EmailOracles := ⟨true, true, true, true⟩

/-- A sample registered Website that has already accumulated one failed check. -/
def wEx : Website :=
  ⟨"https://a.example", 2, false, [⟨CheckStatus.Down 500 "boom", 2⟩], 0⟩

theorem lookupW_insertW_self (m : Registry) (k : String) (w : Website) :
    lookupW k (insertW m k w) = some w := by
  induction m with
  | nil => simp [insertW, lookupW]
  | cons p rest ih =>
    obtain ⟨a, b⟩ := p
    by_cases h : a = k
    · simp [insertW, h, lookupW]
    · simp [insertW, h, lookupW, ih]

theorem lookupW_insertW_ne (m : Registry) (k u : String) (w : Website) (h : u ≠ k) :
    lookupW u (insertW m k w) = lookupW u m := by
  induction m with
  | nil =>
    simp only [insertW, lookupW]
    rw [if_neg (fun hh => h hh.symm)]
  | cons p rest ih =>
    obtain ⟨a, b⟩ := p
    by_cases ha : a = k
    · subst ha
      simp only [insertW, if_pos rfl, lookupW]
      rw [if_neg (fun hh => h hh.symm), if_neg (fun hh => h hh.symm)]
    · simp only [insertW, if_neg ha, lookupW]
      by_cases hu : a = u
      · simp [hu]
      · simp [hu, ih]

theorem lookupW_map (g : Website → Website) (m : Registry) (k : String) :
    lookupW k (m.map (fun p => (p.1, g p.2))) = (lookupW k m).map g := by
  induction m with
  | nil => simp [lookupW]
  | cons p rest ih =>
    obtain ⟨a, b⟩ := p
    by_cases h : a = k
    · simp [lookupW, h]
    · simp [lookupW, h, ih]

/-- C1: one run of update_website_status rewrites every registered Website by appending
exactly one CheckRecord carrying the probe outcome, adding 1 to successful_checks when the
outcome is Up and 0 otherwise, updating last_check, and setting is_up from the outcome. -/
theorem sweep_updates_each_website (probe : String → CheckStatus) (ts : String → Nat)
    (m : Registry) (url : String) (w : Website) (h : lookupW url m = some w) :
    lookupW url (update_website_status probe ts m) =
      some { url := w.url
             last_check := ts w.url
             is_up := (probe w.url).is_up
             total_checks := w.total_checks ++ [⟨probe w.url, ts w.url⟩]
             successful_checks :=
               w.successful_checks + (if (probe w.url).is_up then 1 else 0) } := by
  unfold update_website_status
  rw [lookupW_map (fun w => updateWebsite w (probe w.url) (ts w.url)), h]
  rfl

/-- Witness for C1 at a concrete registry, probe outcome and time. -/
theorem sweep_updates_each_website_witness :
    lookupW "https://a.example" [("https://a.example", wEx)] = some wEx ∧
    lookupW "https://a.example"
        (update_website_status (fun _ => CheckStatus.Down 500 "boom") (fun _ => 9)
          [("https://a.example", wEx)]) =
      some { url := wEx.url
             last_check := 9
             is_up := (CheckStatus.Down 500 "boom").is_up
             total_checks := wEx.total_checks ++ [⟨CheckStatus.Down 500 "boom", 9⟩]
             successful_checks :=
               wEx.successful_checks +
                 (if (CheckStatus.Down 500 "boom").is_up then 1 else 0) } :=
  ⟨by decide,
   sweep_updates_each_website (fun _ => CheckStatus.Down 500 "boom") (fun _ => 9)
     [("https://a.example", wEx)] "https://a.example" wEx (by decide)⟩

/-- C6 counterexample: the state created by add_website depends on the registration time,
so the probe is not the only operation setting the last-check timestamp, and immediately
after add_website the timestamp is present and equals the registration time, not absent. -/
theorem add_sets_last_check_counterexample :
    lookupW "https://a.example" (add_website [] "https://a.example" 0)
      ≠ lookupW "https://a.example" (add_website [] "https://a.example" 1) ∧
    lookupW "https://a.example" (add_website [] "https://a.example" 5)
      = some ⟨"https://a.example", 5, false, [], 0⟩ := by decide

/-- C6 amended: add_website initializes last_check to the registration time, so the field
is always present; each completed probe then updates it to the probe time. -/
theorem last_check_at_registration (m : Registry) (u : String) (t : Nat)
    (probe : String → CheckStatus) (ts : String → Nat) (w : Website)
    (hw : lookupW u m = some w) :
    lookupW u (add_website m u t) = some ⟨u, t, false, [], 0⟩ ∧
    (lookupW u (update_website_status probe ts m)).map Website.last_check
      = some (ts w.url) := by
  constructor
  · unfold add_website
    exact lookupW_insertW_self m u _
  · unfold update_website_status
    rw [lookupW_map (fun x => updateWebsite x (probe x.url) (ts x.url)), hw]
    rfl

/-- Witness for the amended C6 at a concrete registry. -/
theorem last_check_at_registration_witness :
    lookupW "https://a.example" [("https://a.example", wEx)] = some wEx ∧
    (lookupW "https://a.example"
        (add_website [("https://a.example", wEx)] "https://a.example" 7)
      = some ⟨"https://a.example", 7, false, [], 0⟩ ∧
    (lookupW "https://a.example"
        (update_website_status (fun _ => CheckStatus.Up ⟨200, [], none⟩) (fun _ => 8)
          [("https://a.example", wEx)])).map Website.last_check = some 8) :=
  ⟨by decide,
   last_check_at_registration [("https://a.example", wEx)] "https://a.example" 7
     (fun _ => CheckStatus.Up ⟨200, [], none⟩) (fun _ => 8) wEx (by decide)⟩

/-- C3: evaluation of check_website at inputs where the code panics instead of returning a
Down value. First input: the transport succeeds with status 500 but reading the body fails,
and the unwrap on the body text panics. Second input: the transport fails, and with a to
address the mail library cannot parse, send_email_notification returns an error, so the
unwrap at its call site panics. -/
theorem check_website_panics :
    (check_website oracles_ok true "https://a.example"
        (TransportResult.ok ⟨500, [], none, Except.error "connection reset by peer"⟩)
        0).status = none ∧
    (check_website ⟨false, true, true, true⟩ true "https://a.example"
        (TransportResult.err "dns error") 0).status = none := by decide

/-- C10: on a transport failure, check_website passes the notification sink exactly one
FailReport whose status_code is 65535, while the CheckStatus it records for the URL is
Down with status_code 0 and the stringified transport error. -/
theorem transport_failure_codes (o : EmailOracles) (d : Bool) (url msg : String)
    (now : Nat) (ho : o.allOk) :
    (check_website o d url (TransportResult.err msg) now).reports
      = [⟨url, 65535, msg, now⟩] ∧
    (check_website o d url (TransportResult.err msg) now).status
      = some (CheckStatus.Down 0 msg) := by
  obtain ⟨h1, h2, h3, h4⟩ := ho
  unfold check_website send_email_notification
  rw [h1, h2, h3, h4]
  cases d <;> exact ⟨rfl, rfl⟩

/-- Witness for C10 at a concrete transport error. -/
theorem transport_failure_codes_witness :
    oracles_ok.allOk ∧
    ((check_website oracles_ok true "https://a.example"
        (TransportResult.err "timed out") 6).reports
      = [⟨"https://a.example", 65535, "timed out", 6⟩] ∧
    (check_website oracles_ok true "https://a.example"
        (TransportResult.err "timed out") 6).status
      = some (CheckStatus.Down 0 "timed out")) :=
  ⟨by decide,
   transport_failure_codes oracles_ok true "https://a.example" "timed out" 6 (by decide)⟩

/-- C9 counterexample: with a period of 100 time units, one sweep has already been
triggered at time 0, because the first tick of a tokio interval completes immediately; the
claim that no sweep is triggered before one full period has elapsed is false. -/
theorem sweep_at_time_zero :
    (0 : Nat) < 100 ∧ sweepsTriggered 100 0 ≠ 0 ∧ sweepsTriggered 100 0 = 1 := by decide

/-- C9 amended: after start_monitoring with a positive period i, the first sweep is
triggered immediately at time 0 and thereafter one sweep per period, so by time t exactly
t / i + 1 sweeps have been triggered. -/
theorem sweep_schedule (i t : Nat) (hi : 0 < i) : sweepsTriggered i t = t / i + 1 := by
  unfold sweepsTriggered tickTime
  have h : (Finset.range (t + 2)).filter (fun n => n * i ≤ t)
      = Finset.range (t / i + 1) := by
    ext n
    simp only [Finset.mem_filter, Finset.mem_range]
    constructor
    · rintro ⟨-, h2⟩
      exact Nat.lt_succ_of_le ((Nat.le_div_iff_mul_le hi).mpr h2)
    · intro hn
      have hle : n ≤ t / i := Nat.lt_succ_iff.mp hn
      have hdiv : t / i ≤ t := Nat.div_le_self t i
      exact ⟨by omega, (Nat.le_div_iff_mul_le hi).mp hle⟩
  rw [h, Finset.card_range]

/-- Witness for the amended C9: with a 100 unit period, 4 sweeps by time 350, matching the
window of 2 to 4 sweeps the specification tests for. -/
theorem sweep_schedule_witness :
    (0 : Nat) < 100 ∧ sweepsTriggered 100 350 = 350 / 100 + 1 :=
  ⟨by decide, sweep_schedule 100 350 (by decide)⟩

theorem countUp_append (l : List Check) (c : Check) :
    countUp (l ++ [c]) = countUp l + (if c.status.is_up then 1 else 0) := by
  simp [countUp, List.countP_append, List.countP_cons]

theorem goodW_update (w : Website) (st : CheckStatus) (t : Nat) (h : GoodW w) :
    GoodW (updateWebsite w st t) := by
  obtain ⟨h1, _⟩ := h
  constructor
  · simp only [updateWebsite]
    rw [countUp_append, h1]
  · intro c hc
    simp only [updateWebsite, List.getLast?_concat] at hc
    cases hc
    rfl

theorem regAcc_step (url : String) (m : Registry) (acc : Bool × Nat) (op : Op)
    (h : RegAcc url m acc) : RegAcc url (applyOp m op) (probeCountStep url acc op) := by
  obtain ⟨hsome, hnone⟩ := h
  cases op with
  | add u t =>
    by_cases hu : u = url
    · subst hu
      constructor
      · intro w hw
        simp only [applyOp, add_website, probeCountStep, if_pos rfl] at *
        rw [lookupW_insertW_self] at hw
        cases hw
        refine ⟨rfl, rfl, rfl, ?_⟩
        intro c hc
        simp at hc
      · intro hw
        simp only [applyOp, add_website] at hw
        rw [lookupW_insertW_self] at hw
        cases hw
    · constructor
      · intro w hw
        simp only [applyOp, add_website] at hw
        rw [lookupW_insertW_ne _ _ _ _ (fun hh => hu hh.symm)] at hw
        simpa [probeCountStep, hu] using hsome w hw
      · intro hw
        simp only [applyOp, add_website] at hw
        rw [lookupW_insertW_ne _ _ _ _ (fun hh => hu hh.symm)] at hw
        simpa [probeCountStep, hu] using hnone hw
  | sweep probe ts =>
    constructor
    · intro w hw
      simp only [applyOp, update_website_status] at hw
      rw [lookupW_map (fun x => updateWebsite x (probe x.url) (ts x.url))] at hw
      cases hv : lookupW url m with
      | none => rw [hv] at hw; cases hw
      | some v =>
        rw [hv] at hw
        obtain ⟨hflag, hlen, hgood⟩ := hsome v hv
        cases hw
        refine ⟨?_, ?_, goodW_update v _ _ hgood⟩
        · simp [probeCountStep, hflag]
        · simp [probeCountStep, hflag, updateWebsite, hlen]
    · intro hw
      simp only [applyOp, update_website_status] at hw
      rw [lookupW_map (fun x => updateWebsite x (probe x.url) (ts x.url))] at hw
      cases hv : lookupW url m with
      | none =>
        have := hnone hv
        simp [probeCountStep, this]
      | some v => rw [hv] at hw; cases hw

theorem run_inv (url : String) (ops : List Op) :
    ∀ (m : Registry) (acc : Bool × Nat), RegAcc url m acc →
      RegAcc url (ops.foldl applyOp m) (ops.foldl (probeCountStep url) acc) := by
  induction ops with
  | nil => intro m acc h; exact h
  | cons op rest ih =>
    intro m acc h
    exact ih _ _ (regAcc_step url m acc op h)

/-- C2: in every registry state reachable by add_website and sweep operations, every
registered Website has successful_checks equal to the number of Up entries of its history,
a history length equal to the number of probes performed for it since it was last added,
and is_up equal to the Up-ness of the latest history entry once the history is
non-empty. -/
theorem registry_invariant (ops : List Op) (url : String) (w : Website)
    (h : lookupW url (run ops) = some w) :
    w.successful_checks = countUp w.total_checks ∧
    w.total_checks.length = probesSinceAdd ops url ∧
    ∀ c, w.total_checks.getLast? = some c → w.is_up = c.status.is_up := by
  have base : RegAcc url [] (false, 0) := by
    constructor
    · intro w hw; cases hw
    · intro _; rfl
  have main := run_inv url ops [] (false, 0) base
  obtain ⟨hsome, -⟩ := main
  obtain ⟨-, hlen, hgood⟩ := hsome w h
  exact ⟨hgood.1, hlen, hgood.2⟩

/-- A sample operation sequence: register a URL, then run a failing sweep and a
succeeding sweep. -/
def opsEx : List Op :=
  [Op.add "https://a.example" 0,
   Op.sweep (fun _ => CheckStatus.Down 500 "boom") (fun _ => 1),
   Op.sweep (fun _ => CheckStatus.Up ⟨200, [], none⟩) (fun _ => 2)]

/-- The Website state that opsEx produces. -/
def wRun : Website :=
  ⟨"https://a.example", 2, true,
   [⟨CheckStatus.Down 500 "boom", 1⟩, ⟨CheckStatus.Up ⟨200, [], none⟩, 2⟩], 1⟩

/-- Witness for C2 on the concrete operation sequence opsEx. -/
theorem registry_invariant_witness :
    lookupW "https://a.example" (run opsEx) = some wRun ∧
    (wRun.successful_checks = countUp wRun.total_checks ∧
     wRun.total_checks.length = probesSinceAdd opsEx "https://a.example" ∧
     ∀ c, wRun.total_checks.getLast? = some c → wRun.is_up = c.status.is_up) :=
  ⟨by decide, registry_invariant opsEx "https://a.example" wRun (by decide)⟩

theorem mem_insertW (m : Registry) (k : String) (w : Website) (p : String × Website)
    (h : p ∈ insertW m k w) : p ∈ m ∨ p = (k, w) := by
  induction m with
  | nil =>
    simp only [insertW, List.mem_singleton] at h
    exact Or.inr h
  | cons q rest ih =>
    obtain ⟨a, b⟩ := q
    by_cases ha : a = k
    · simp only [insertW, if_pos ha, List.mem_cons] at h
      rcases h with h | h
      · exact Or.inr h
      · exact Or.inl (List.mem_cons_of_mem _ h)
    · simp only [insertW, if_neg ha, List.mem_cons] at h
      rcases h with h | h
      · exact Or.inl (List.mem_cons.mpr (Or.inl h))
      · rcases ih h with h2 | h2
        · exact Or.inl (List.mem_cons_of_mem _ h2)
        · exact Or.inr h2

theorem keys_mem_insertW (m : Registry) (k : String) (w : Website) (x : String)
    (h : x ∈ (insertW m k w).map Prod.fst) : x ∈ m.map Prod.fst ∨ x = k := by
  rcases List.mem_map.mp h with ⟨p, hp, hx⟩
  rcases mem_insertW m k w p hp with h2 | h2
  · exact Or.inl (List.mem_map.mpr ⟨p, h2, hx⟩)
  · subst h2; exact Or.inr hx.symm

theorem countP_url_zero (rest : Registry) (k : String)
    (hk : k ∉ rest.map Prod.fst) (hurl : ∀ p ∈ rest, (p : String × Website).2.url = p.1) :
    rest.countP (fun p => p.2.url == k) = 0 := by
  rw [List.countP_eq_zero]
  intro p hp
  have h1 : p.2.url = p.1 := hurl p hp
  have h2 : p.1 ≠ k := fun hh => hk (List.mem_map.mpr ⟨p, hp, hh⟩)
  simp [h1, h2]

theorem insertW_fresh (m : Registry) (k : String) (w : Website) (hw : w.url = k)
    (hwf : wfR m) :
    (insertW m k w).countP (fun p => p.2.url == k) = 1 ∧ wfR (insertW m k w) := by
  induction m with
  | nil =>
    refine ⟨?_, ?_, ?_⟩
    · simp [insertW, List.countP_cons, hw]
    · simp [insertW]
    · intro p hp
      simp only [insertW, List.mem_singleton] at hp
      subst hp; exact hw
  | cons q rest ih =>
    obtain ⟨a, b⟩ := q
    obtain ⟨hnodup, hurl⟩ := hwf
    simp only [List.map_cons, List.nodup_cons] at hnodup
    obtain ⟨hna, hnrest⟩ := hnodup
    have hurl_rest : ∀ p ∈ rest, (p : String × Website).2.url = p.1 :=
      fun p hp => hurl p (List.mem_cons_of_mem _ hp)
    by_cases ha : a = k
    · subst ha
      have hins : insertW ((a, b) :: rest) a w = (a, w) :: rest := by
        simp [insertW]
      rw [hins]
      constructor
      · rw [List.countP_cons, countP_url_zero rest a hna hurl_rest]
        simp [hw]
      · constructor
        · simp only [List.map_cons, List.nodup_cons]
          exact ⟨hna, hnrest⟩
        · intro p hp
          rcases List.mem_cons.mp hp with hp | hp
          · subst hp; exact hw
          · exact hurl_rest p hp
    · obtain ⟨ihc, ihwf⟩ := ih ⟨hnrest, hurl_rest⟩
      have hins : insertW ((a, b) :: rest) k w = (a, b) :: insertW rest k w := by
        simp [insertW, ha]
      rw [hins]
      constructor
      · rw [List.countP_cons, ihc]
        have hb : b.url = a := hurl (a, b) (List.mem_cons_self _ _)
        have hbk : (b.url == k) = false := by simp [hb, ha]
        simp [hbk]
      · constructor
        · simp only [List.map_cons, List.nodup_cons]
          refine ⟨?_, ihwf.1⟩
          intro hmem
          rcases keys_mem_insertW rest k w a hmem with h2 | h2
          · exact hna h2
          · exact ha h2
        · intro p hp
          rcases List.mem_cons.mp hp with hp | hp
          · subst hp; exact hurl (a, b) (List.mem_cons_self _ _)
          · rcases mem_insertW rest k w p hp with h2 | h2
            · exact hurl_rest p h2
            · subst h2; exact hw

theorem countP_map_snd (f : Website → Bool) (l : Registry) :
    (l.map Prod.snd).countP f = l.countP (fun p => f p.2) := by
  induction l with
  | nil => rfl
  | cons p rest ih => simp [List.countP_cons, ih]

/-- C5: after add_website u, a snapshot contains u exactly once, the stored state has an
empty history and is_up false, and well-formedness is preserved; since the fresh state
replaces any previous one, re-adding a registered URL discards its accumulated history
and counters. -/
theorem add_website_fresh (m : Registry) (u : String) (t : Nat) (hwf : wfR m) :
    (get_status (add_website m u t)).countP (fun w => w.url == u) = 1 ∧
    lookupW u (add_website m u t) = some ⟨u, t, false, [], 0⟩ ∧
    wfR (add_website m u t) := by
  obtain ⟨hc, hwf2⟩ := insertW_fresh m u ⟨u, t, false, [], 0⟩ rfl hwf
  refine ⟨?_, ?_, hwf2⟩
  · unfold get_status add_website
    rw [countP_map_snd]
    exact hc
  · unfold add_website
    exact lookupW_insertW_self m u _

/-- Witness for C5: re-adding a URL that already carries one recorded check resets its
state to an empty history. -/
theorem add_website_fresh_witness :
    wfR [("https://a.example", wEx)] ∧
    ((get_status (add_website [("https://a.example", wEx)] "https://a.example" 7)).countP
        (fun w => w.url == "https://a.example") = 1 ∧
     lookupW "https://a.example"
        (add_website [("https://a.example", wEx)] "https://a.example" 7)
       = some ⟨"https://a.example", 7, false, [], 0⟩ ∧
     wfR (add_website [("https://a.example", wEx)] "https://a.example" 7)) :=
  ⟨by decide,
   add_website_fresh [("https://a.example", wEx)] "https://a.example" 7 (by decide)⟩

theorem send_ok_of_allOk (o : EmailOracles) (d : Bool) (h : o.allOk) :
    (send_email_notification o d).2 = some (Except.ok ()) := by
  obtain ⟨h1, h2, h3, h4⟩ := h
  unfold send_email_notification
  rw [h1, h2, h3, h4]
  cases d <;> rfl

/-- C4: when the transport succeeds, the status is outside the success range, and the body
is read to the end, check_website records Down with the actual status code and with the
lossily decoded body text as the message; decoding substitutes the replacement character
for every malformed sequence instead of failing the check. -/
theorem down_records_body (o : EmailOracles) (d : Bool) (url : String)
    (resp : HttpResponse) (units : BodyUnits) (now : Nat)
    (hs : is_success resp.status_code = false)
    (hb : resp.body = Except.ok units)
    (ho : o.allOk) :
    (check_website o d url (TransportResult.ok resp) now).status
      = some (CheckStatus.Down resp.status_code (textLossy units)) ∧
    (none ∈ units → replacementChar ∈ (textLossy units).data) := by
  constructor
  · simp only [check_website]
    rw [if_pos hs, hb]
    simp only [send_ok_of_allOk o d ho]
  · intro hmem
    show replacementChar ∈ units.map (fun u => u.getD replacementChar)
    exact List.mem_map.mpr ⟨none, hmem, rfl⟩

/-- Witness for C4 on a 500 response whose body holds one malformed sequence. -/
theorem down_records_body_witness :
    (is_success 500 = false ∧
     (HttpResponse.mk 500 [] none (Except.ok [some 'a', none])).body
       = Except.ok [some 'a', none] ∧
     oracles_ok.allOk) ∧
    ((check_website oracles_ok true "https://a.example"
        (TransportResult.ok ⟨500, [], none, Except.ok [some 'a', none]⟩) 0).status
      = some (CheckStatus.Down 500 (textLossy [some 'a', none])) ∧
     (none ∈ ([some 'a', none] : BodyUnits) →
       replacementChar ∈ (textLossy [some 'a', none]).data)) :=
  ⟨⟨by decide, rfl, by decide⟩,
   down_records_body oracles_ok true "https://a.example"
     ⟨500, [], none, Except.ok [some 'a', none]⟩ [some 'a', none] 0
     (by decide) rfl (by decide)⟩

theorem check_reports_count (o : EmailOracles) (d : Bool) (url : String)
    (tr : TransportResult) (now : Nat) (st : CheckStatus)
    (h : (check_website o d url tr now).status = some st) :
    (check_website o d url tr now).reports.length
      = (if st.is_up then 0 else 1) := by
  cases tr with
  | ok resp =>
    by_cases hs : is_success resp.status_code = false
    · cases hb : resp.body with
      | error e =>
        simp [check_website, hs, hb] at h
      | ok units =>
        cases hsend : (send_email_notification o d).2 with
        | none => simp [check_website, hs, hb, hsend] at h
        | some r =>
          cases r with
          | error e => simp [check_website, hs, hb, hsend] at h
          | ok u =>
            simp [check_website, hs, hb, hsend] at h
            subst h
            simp [check_website, hs, hb, hsend, CheckStatus.is_up]
    · cases hh : resp.headers.all (fun p => p.2.isSome) with
      | false => simp [check_website, hs, hh] at h
      | true =>
        simp [check_website, hs, hh] at h
        subst h
        simp [check_website, hs, hh, CheckStatus.is_up]
  | err msg =>
    cases hsend : (send_email_notification o d).2 with
    | none => simp [check_website, hsend] at h
    | some r =>
      cases r with
      | error e => simp [check_website, hsend] at h
      | ok u =>
        simp [check_website, hsend] at h
        subst h
        simp [check_website, hsend, CheckStatus.is_up]

/-- C7: a completed sweep passes the notification sink exactly one FailReport per Down
outcome it observes, whatever the delivery outcomes are; since the monitor keeps no
notification state, a Down outcome for the same URL in a later sweep produces one report
again. -/
theorem one_report_per_down (o : String → EmailOracles) (d : String → Bool)
    (tr : String → TransportResult) (ts : String → Nat) (m : Registry) (out : SweepOut)
    (h : update_website_status_full o d tr ts m = some out) :
    out.reports.length = downCount o d tr ts m := by
  induction m generalizing out with
  | nil =>
    simp only [update_website_status_full] at h
    injection h with h2
    subst h2
    rfl
  | cons p rest ih =>
    obtain ⟨k, w⟩ := p
    simp only [update_website_status_full] at h
    cases hst : (check_website (o w.url) (d w.url) w.url (tr w.url) (ts w.url)).status with
    | none =>
      simp only [hst] at h
      simp at h
    | some st =>
      simp only [hst] at h
      cases hrest : update_website_status_full o d tr ts rest with
      | none =>
        simp only [hrest] at h
        simp at h
      | some out2 =>
        simp only [hrest] at h
        injection h with h2
        subst h2
        have hcnt := check_reports_count (o w.url) (d w.url) w.url (tr w.url) (ts w.url)
          st hst
        have ihr := ih out2 hrest
        simp only [downCount, List.countP_cons] at *
        simp only [List.length_append, hcnt, ihr, hst]
        cases hu : st.is_up <;> (simp [hu]; try omega)

theorem check_delivery_same (o : EmailOracles) (d1 d2 : Bool) (url : String)
    (tr : TransportResult) (now : Nat) :
    (check_website o d1 url tr now).status = (check_website o d2 url tr now).status ∧
    (check_website o d1 url tr now).reports = (check_website o d2 url tr now).reports := by
  have hsend : (send_email_notification o d1).2 = (send_email_notification o d2).2 := by
    obtain ⟨a, b, c, e⟩ := o
    cases a <;> cases b <;> cases c <;> cases e <;> cases d1 <;> cases d2 <;> rfl
  cases tr with
  | ok resp =>
    by_cases hs : is_success resp.status_code = false
    · cases hb : resp.body with
      | error e2 => constructor <;> simp [check_website, hs, hb]
      | ok units =>
        cases hsend2 : (send_email_notification o d2).2 with
        | none =>
          have hsend1 := hsend.trans hsend2
          constructor <;> simp [check_website, hs, hb, hsend1, hsend2]
        | some r =>
          have hsend1 := hsend.trans hsend2
          cases r with
          | error e3 =>
            constructor <;> simp [check_website, hs, hb, hsend1, hsend2]
          | ok u =>
            constructor <;> simp [check_website, hs, hb, hsend1, hsend2]
    · constructor <;> simp [check_website, hs]
  | err msg =>
    cases hsend2 : (send_email_notification o d2).2 with
    | none =>
      have hsend1 := hsend.trans hsend2
      constructor <;> simp [check_website, hsend1, hsend2]
    | some r =>
      have hsend1 := hsend.trans hsend2
      cases r with
      | error e3 =>
        constructor <;> simp [check_website, hsend1, hsend2]
      | ok u =>
        constructor <;> simp [check_website, hsend1, hsend2]

theorem sweep_delivery_aux (o : String → EmailOracles) (d1 d2 : String → Bool)
    (tr : String → TransportResult) (ts : String → Nat) (m : Registry) :
    (update_website_status_full o d1 tr ts m).map (fun s => (s.registry, s.reports))
      = (update_website_status_full o d2 tr ts m).map (fun s => (s.registry, s.reports))
      := by
  induction m with
  | nil => rfl
  | cons p rest ih =>
    obtain ⟨k, w⟩ := p
    obtain ⟨hst, hrep⟩ := check_delivery_same (o w.url) (d1 w.url) (d2 w.url) w.url
      (tr w.url) (ts w.url)
    cases hs1 : (check_website (o w.url) (d1 w.url) w.url (tr w.url) (ts w.url)).status
      with
    | none =>
      have hs2 := hst.symm.trans hs1
      simp [update_website_status_full, hs1, hs2]
    | some st =>
      have hs2 := hst.symm.trans hs1
      cases hr1 : update_website_status_full o d1 tr ts rest with
      | none =>
        have hr2 : update_website_status_full o d2 tr ts rest = none := by
          cases hr2 : update_website_status_full o d2 tr ts rest with
          | none => rfl
          | some out2 =>
            rw [hr1, hr2] at ih
            simp at ih
        simp [update_website_status_full, hs1, hs2, hr1, hr2]
      | some out1 =>
        cases hr2 : update_website_status_full o d2 tr ts rest with
        | none =>
          rw [hr1, hr2] at ih
          simp at ih
        | some out2 =>
          rw [hr1, hr2] at ih
          simp only [Option.map_some', Option.some.injEq, Prod.mk.injEq] at ih
          obtain ⟨hreg, hreports⟩ := ih
          simp [update_website_status_full, hs1, hs2, hr1, hr2, hrep, hreg, hreports]

theorem sweep_completes (o : String → EmailOracles) (d : String → Bool)
    (tr : String → TransportResult) (ts : String → Nat) (m : Registry)
    (h : ∀ p ∈ m, (check_website (o (p : String × Website).2.url) (d p.2.url) p.2.url
      (tr p.2.url) (ts p.2.url)).status ≠ none) :
    ∃ out, update_website_status_full o d tr ts m = some out ∧
      out.registry.map Prod.fst = m.map Prod.fst := by
  induction m with
  | nil => exact ⟨⟨[], [], []⟩, rfl, rfl⟩
  | cons p rest ih =>
    obtain ⟨k, w⟩ := p
    have hp := h (k, w) (List.mem_cons_self _ _)
    cases hs : (check_website (o w.url) (d w.url) w.url (tr w.url) (ts w.url)).status with
    | none => exact absurd hs hp
    | some st =>
      obtain ⟨out, hout, hkeys⟩ := ih (fun q hq => h q (List.mem_cons_of_mem _ hq))
      refine ⟨⟨(k, updateWebsite w st (ts w.url)) :: out.registry,
        (check_website (o w.url) (d w.url) w.url (tr w.url) (ts w.url)).reports
          ++ out.reports,
        (check_website (o w.url) (d w.url) w.url (tr w.url) (ts w.url)).log
          ++ out.log⟩, ?_, ?_⟩
      · simp [update_website_status_full, hs, hout]
      · simp [hkeys]

/-- C8: the registry states and FailReports a sweep produces are identical for any two
delivery oracles, so a notification delivery failure never changes the recorded per-URL
state; and whenever no check panics, the sweep completes with every registered URL
processed. -/
theorem delivery_failure_harmless (o : String → EmailOracles) (d1 d2 : String → Bool)
    (tr : String → TransportResult) (ts : String → Nat) (m : Registry)
    (h : ∀ p ∈ m, (check_website (o (p : String × Website).2.url) (d1 p.2.url) p.2.url
      (tr p.2.url) (ts p.2.url)).status ≠ none) :
    (update_website_status_full o d1 tr ts m).map (fun s => (s.registry, s.reports))
      = (update_website_status_full o d2 tr ts m).map (fun s => (s.registry, s.reports))
      ∧
    ∃ out, update_website_status_full o d1 tr ts m = some out ∧
      out.registry.map Prod.fst = m.map Prod.fst :=
  ⟨sweep_delivery_aux o d1 d2 tr ts m, sweep_completes o d1 tr ts m h⟩

/-- The SweepOut produced by sweeping a one-entry registry whose probe hits a transport
error, with all mail calls succeeding. -/
def outEx : SweepOut :=
  ⟨[("https://a.example", ⟨"https://a.example", 4, false,
      [⟨CheckStatus.Down 500 "boom", 2⟩, ⟨CheckStatus.Down 0 "dns error", 4⟩], 0⟩)],
   [⟨"https://a.example", 65535, "dns error", 4⟩],
   ["err = dns error", "Email sent successfully!"]⟩

/-- Witness for C7: one Down outcome during a concrete sweep yields exactly one
FailReport. -/
theorem one_report_per_down_witness :
    update_website_status_full (fun _ => oracles_ok) (fun _ => true)
        (fun _ => TransportResult.err "dns error") (fun _ => 4)
        [("https://a.example", wEx)] = some outEx ∧
    outEx.reports.length
      = downCount (fun _ => oracles_ok) (fun _ => true)
          (fun _ => TransportResult.err "dns error") (fun _ => 4)
          [("https://a.example", wEx)] :=
  ⟨by decide,
   one_report_per_down (fun _ => oracles_ok) (fun _ => true)
     (fun _ => TransportResult.err "dns error") (fun _ => 4)
     [("https://a.example", wEx)] outEx (by decide)⟩

/-- Witness for C8 on a concrete failing probe: delivery success and delivery failure give
the same recorded state and reports, and the sweep completes. -/
theorem delivery_failure_harmless_witness :
    (∀ p ∈ [("https://a.example", wEx)],
      (check_website ((fun _ => oracles_ok) (p : String × Website).2.url)
        ((fun _ => true) p.2.url) p.2.url ((fun _ => TransportResult.err "dns error")
          p.2.url) ((fun _ => 4) p.2.url)).status ≠ none) ∧
    ((update_website_status_full (fun _ => oracles_ok) (fun _ => true)
        (fun _ => TransportResult.err "dns error") (fun _ => 4)
        [("https://a.example", wEx)]).map (fun s => (s.registry, s.reports))
      = (update_website_status_full (fun _ => oracles_ok) (fun _ => false)
        (fun _ => TransportResult.err "dns error") (fun _ => 4)
        [("https://a.example", wEx)]).map (fun s => (s.registry, s.reports)) ∧
    ∃ out, update_website_status_full (fun _ => oracles_ok) (fun _ => true)
        (fun _ => TransportResult.err "dns error") (fun _ => 4)
        [("https://a.example", wEx)] = some out ∧
      out.registry.map Prod.fst = [("https://a.example", wEx)].map Prod.fst) :=
  ⟨by decide,
   delivery_failure_harmless (fun _ => oracles_ok) (fun _ => true) (fun _ => false)
     (fun _ => TransportResult.err "dns error") (fun _ => 4)
     [("https://a.example", wEx)] (by decide)⟩

end Pingu
